import Mathlib

/-
  Verification development for the BehaviorTree library
  (src/src/BehaviorTree.cpp, the most recent revision, which the
  claims reference by line number).

  Modelling conventions:
  * `NODE_STATE` is the status enum of the source.
  * A child node (`BehaviorTree::Node`, polymorphic in C++) is modelled as a
    `Child σ`: a step function over its own state type `σ` together with its
    current state.  `update(delta)` on a child is `step st delta`, returning
    the status and the mutated state.
  * `float delta` and the elapsed-time accumulators are modelled as `ℚ`;
    the concrete inputs used in the theorems (durations 2, deltas 1) are
    exactly representable in `float`, so rational arithmetic agrees with the
    source on them.
  * The process-wide mutable flag `BehaviorTree::IGNORE_ERROR` (default
    `true`) is threaded as an explicit `ignoreError : Bool` parameter, read
    exactly where the source reads the global.
  * `std::vector<std::unique_ptr<Node>> children` is modelled as
    `List (Child σ)`.  `addChild` rejects null pointers, and no modelled
    operation stores a null child, so the `!= nullptr` guards of the source
    are vacuously true and the null case is not represented.
  * `runningChildIndex : int` only ever holds `NO_RUNNING_CHILD = -1` or a
    loop index `0 ≤ i < size` recorded by `updateChildren`; it is modelled
    as `Option ℕ` (`none` = `NO_RUNNING_CHILD`, possibly stale `some i`).
-/

inductive NODE_STATE where
  | SUCCESS
  | FAILURE
  | RUNNING
  | ERROR
deriving DecidableEq, Repr

/-- constant `BehaviorTree::INFINITE_CHILDREN = -1` -/
def INFINITE_CHILDREN : ℤ := -1

/-- constant `BehaviorTree::Repeat::REPEAT_INFINITE = -1` -/
def REPEAT_INFINITE : ℤ := -1

/-- An externally supplied node: its update behaviour (`step`) and its
current internal state (`st`). -/
structure Child (σ : Type) where
  step : σ → ℚ → NODE_STATE × σ
  st : σ

/-- The data members of `BehaviorTree::CompositeNode`. -/
structure CompositeNode (σ : Type) where
  children : List (Child σ)
  maxChildrenSize : ℤ
  runningChildIndex : Option ℕ

/-- The function `CompositeNode::addChild` (source lines 50-62): pushes a non-null child,
returns whether the append occurred. -/
def addChild {σ : Type} (s : CompositeNode σ) (child : Option (Child σ)) :
    Bool × CompositeNode σ :=
  match child with
  | some c => (true, { s with children := s.children ++ [c] })
  | none => (false, s)

/-- The function `CompositeNode::addChildren` (source lines 64-93): rejects an empty
batch, rejects a batch that would exceed a finite cap, otherwise appends
all children. -/
def addChildren {σ : Type} (s : CompositeNode σ) (cs : List (Child σ)) :
    Bool × CompositeNode σ :=
  if cs.isEmpty then (false, s)
  else if s.maxChildrenSize ≠ INFINITE_CHILDREN ∧
          s.maxChildrenSize < (s.children.length : ℤ) + (cs.length : ℤ) then
    (false, s)
  else (true, { s with children := s.children ++ cs })

/-- The function `CompositeNode::clearChildren` (source lines 101-105): clears the vector.
The `cleanUp` argument is ignored by the source, and `runningChildIndex` is
not touched. -/
def clearChildren {σ : Type} (s : CompositeNode σ) (cleanUp : Bool) :
    CompositeNode σ :=
  { s with children := [] }

/-- Outcome of `CompositeNode::setMaxChildrenSize`.  `ret` is a normal
return; `noReturn` models the control path that reaches the end of the
non-void function without executing a `return` (the returned `bool` is
undefined) while the state mutation before it is kept; `hang` models the
cleanup loop that never terminates; `oob` models an index or size argument
that makes `children.at` / `vector::resize` throw. -/
inductive SetMaxResult (σ : Type) where
  | ret (value : Bool) (s : CompositeNode σ)
  | noReturn (s : CompositeNode σ)
  | hang
  | oob

/-- The function `CompositeNode::setMaxChildrenSize` (source lines 107-166).  The branch
order matches the source: reject 0; same-as-current-count returns true
without storing the cap; the infinite sentinel; growth relative to the
stored cap; shrink that fits the current count; otherwise the truncation
path, whose cleanup loop `for (; i < childrenSize; i)` never increments `i`
(so it never terminates once entered) and whose fall-through end has no
return statement. -/
def setMaxChildrenSize {σ : Type} (s : CompositeNode σ) (m : ℤ)
    (cleanUpRemains : Bool) : SetMaxResult σ :=
  if m = 0 then .ret false s
  else if m = (s.children.length : ℤ) then .ret true s
  else if m = INFINITE_CHILDREN then
    .ret true { s with maxChildrenSize := INFINITE_CHILDREN }
  else if s.maxChildrenSize ≤ m then .ret true { s with maxChildrenSize := m }
  else if (s.children.length : ℤ) < m then
    .ret true { s with maxChildrenSize := m }
  else if m < 0 then .oob
  else if cleanUpRemains then .hang
  else .noReturn { s with children := s.children.take m.toNat }

/-- The function `CompositeNode::isRunningChildIndexValid` (source lines 168-172):
`runningChildIndex < size && runningChildIndex != NO_RUNNING_CHILD`. -/
def isRunningChildIndexValid {σ : Type} (s : CompositeNode σ) : Bool :=
  match s.runningChildIndex with
  | some i => i < s.children.length
  | none => false

/-- The function `CompositeNode::updateRunningChild` (source lines 174-208).  Polls the
remembered running child.  RUNNING is returned with the index kept;
SUCCESS clears the index; any other status (FAILURE or ERROR) clears the
index, sets the out-parameter `start` to the index after the running child
and falls through to `return FAILURE` — note that a child ERROR is thereby
reported as FAILURE to the caller.  Both call sites guard the call with
`isRunningChildIndexValid`, so the polled index is in range there; with no
running index the source would perform `children.at(-1)`, unreachable from
the call sites, and the model takes the fall-through instead. -/
def updateRunningChild {σ : Type} (s : CompositeNode σ) (delta : ℚ)
    (start : ℕ) : NODE_STATE × CompositeNode σ × ℕ :=
  match s.runningChildIndex with
  | some idx =>
    if h : idx < s.children.length then
      let c := s.children.get ⟨idx, h⟩
      let r := c.step c.st delta
      let s' : CompositeNode σ :=
        { s with children := s.children.set idx ⟨c.step, r.2⟩ }
      if r.1 = NODE_STATE.RUNNING then (r.1, s', start)
      else if r.1 = NODE_STATE.SUCCESS then
        (r.1, { s' with runningChildIndex := none }, start)
      else
        (NODE_STATE.FAILURE, { s' with runningChildIndex := none }, idx + 1)
    else (NODE_STATE.FAILURE, s, start)
  | none => (NODE_STATE.FAILURE, s, start)

/-- Loop body of `CompositeNode::updateChildren` (source lines 210-261),
written with an explicit iteration-count fuel so that the recursion is
structural: `fuel` is the number of loop iterations left, `i` the loop
index.  The list length is unchanged by `List.set`, so with
`fuel = size - i` the guard `i < size` and the fuel run out together,
exactly like the source loop. -/
def updateChildrenFrom {σ : Type} (ignoreError : Bool) (delta : ℚ)
    (continueCondition : NODE_STATE) :
    ℕ → CompositeNode σ → ℕ → NODE_STATE × CompositeNode σ
  | 0, s, _ => (continueCondition, s)
  | fuel + 1, s, i =>
    if h : i < s.children.length then
      let c := s.children.get ⟨i, h⟩
      let r := c.step c.st delta
      let s' : CompositeNode σ :=
        { s with children := s.children.set i ⟨c.step, r.2⟩ }
      if r.1 = continueCondition then
        updateChildrenFrom ignoreError delta continueCondition fuel s' (i + 1)
      else if r.1 = NODE_STATE.ERROR then
        if ignoreError then
          updateChildrenFrom ignoreError delta continueCondition fuel s' (i + 1)
        else (NODE_STATE.ERROR, s')
      else if r.1 = NODE_STATE.RUNNING then
        (NODE_STATE.RUNNING, { s' with runningChildIndex := some i })
      else (r.1, s')
    else (continueCondition, s)

/-- The function `CompositeNode::updateChildren(start, delta, continueCondition)`:
iterate the children from `start`, treating `continueCondition` as
"keep going", ERROR as continue-or-abort depending on the ignore-error
flag, RUNNING as record-index-and-return, anything else as terminal. -/
def updateChildren {σ : Type} (ignoreError : Bool) (s : CompositeNode σ)
    (start : ℕ) (delta : ℚ) (continueCondition : NODE_STATE) :
    NODE_STATE × CompositeNode σ :=
  updateChildrenFrom ignoreError delta continueCondition
    (s.children.length - start) s start

/-- The function `Selector::update` (source lines 283-317): empty children is ERROR;
a valid running child is resumed first, its SUCCESS or RUNNING is returned
as is, an ERROR with the ignore-error flag off returns ERROR (dead in
practice, since `updateRunningChild` never returns ERROR); otherwise the
children are iterated from the post-resume start with continue-condition
FAILURE. -/
def Selector.update {σ : Type} (ignoreError : Bool) (s : CompositeNode σ)
    (delta : ℚ) : NODE_STATE × CompositeNode σ :=
  if s.children.isEmpty then (NODE_STATE.ERROR, s)
  else if isRunningChildIndexValid s then
    let r := updateRunningChild s delta 0
    if r.1 = NODE_STATE.SUCCESS ∨ r.1 = NODE_STATE.RUNNING then (r.1, r.2.1)
    else if r.1 = NODE_STATE.ERROR ∧ ignoreError = false then
      (NODE_STATE.ERROR, r.2.1)
    else updateChildren ignoreError r.2.1 r.2.2 delta NODE_STATE.FAILURE
  else updateChildren ignoreError s 0 delta NODE_STATE.FAILURE

/-- The function `Sequence::update` (source lines 378-414): empty children is ERROR;
a valid running child is resumed first, its FAILURE or RUNNING is returned
as is, an ERROR with the ignore-error flag off is returned (dead in
practice); otherwise the children are iterated from the post-resume start
with continue-condition SUCCESS.  Note that after a resumed-child SUCCESS
the start index is still 0: `updateRunningChild` only advances it in its
FAILURE branch. -/
def Sequence.update {σ : Type} (ignoreError : Bool) (s : CompositeNode σ)
    (delta : ℚ) : NODE_STATE × CompositeNode σ :=
  if s.children.isEmpty then (NODE_STATE.ERROR, s)
  else if isRunningChildIndexValid s then
    let r := updateRunningChild s delta 0
    if r.1 = NODE_STATE.FAILURE ∨ r.1 = NODE_STATE.RUNNING then (r.1, r.2.1)
    else if r.1 = NODE_STATE.ERROR ∧ ignoreError = false then (r.1, r.2.1)
    else updateChildren ignoreError r.2.1 r.2.2 delta NODE_STATE.SUCCESS
  else updateChildren ignoreError s 0 delta NODE_STATE.SUCCESS

/-- Data of `RandomSelector` / `RandomSequence`: the composite base plus
the `needShuffle` flag (initialised `true` by the constructors). -/
structure RandomComposite (σ : Type) where
  base : CompositeNode σ
  needShuffle : Bool

/-- The function `RandomSelector::update` (source lines 335-363): empty children is
ERROR; the children are shuffled only when no running child is remembered
and `needShuffle` holds; then `Selector::update` runs and `needShuffle` is
re-armed unless the result is RUNNING.  The call
`std::shuffle(children, engine)` is modelled by an arbitrary rearrangement
parameter `sh`. -/
def RandomSelector.update {σ : Type} (ignoreError : Bool)
    (sh : List (Child σ) → List (Child σ)) (s : RandomComposite σ)
    (delta : ℚ) : NODE_STATE × RandomComposite σ :=
  if s.base.children.isEmpty then (NODE_STATE.ERROR, s)
  else
    let base1 :=
      if s.base.runningChildIndex = none ∧ s.needShuffle then
        { s.base with children := sh s.base.children }
      else s.base
    let r := Selector.update ignoreError base1 delta
    (r.1, { base := r.2,
            needShuffle := if r.1 = NODE_STATE.RUNNING then false else true })

/-- The function `RandomSequence::update` (source lines 429-456): same shuffle rule as
`RandomSelector`, delegating to `Sequence::update`. -/
def RandomSequence.update {σ : Type} (ignoreError : Bool)
    (sh : List (Child σ) → List (Child σ)) (s : RandomComposite σ)
    (delta : ℚ) : NODE_STATE × RandomComposite σ :=
  if s.base.children.isEmpty then (NODE_STATE.ERROR, s)
  else
    let base1 :=
      if s.base.runningChildIndex = none ∧ s.needShuffle then
        { s.base with children := sh s.base.children }
      else s.base
    let r := Sequence.update ignoreError base1 delta
    (r.1, { base := r.2,
            needShuffle := if r.1 = NODE_STATE.RUNNING then false else true })

/-- Data of `BehaviorTree::DecoratorNode`: exactly one (possibly absent)
owned child. -/
structure DecoratorNode (σ : Type) where
  child : Option (Child σ)

/-- The function `Inverter::update` (source lines 498-519): a missing child is ERROR;
RUNNING and ERROR pass through; SUCCESS and FAILURE are swapped. -/
def Inverter.update {σ : Type} (s : DecoratorNode σ) (delta : ℚ) :
    NODE_STATE × DecoratorNode σ :=
  match s.child with
  | none => (NODE_STATE.ERROR, s)
  | some c =>
    let r := c.step c.st delta
    let s' : DecoratorNode σ := ⟨some ⟨c.step, r.2⟩⟩
    if r.1 = NODE_STATE.RUNNING ∨ r.1 = NODE_STATE.ERROR then (r.1, s')
    else if r.1 = NODE_STATE.SUCCESS then (NODE_STATE.FAILURE, s')
    else (NODE_STATE.SUCCESS, s')

/-- An Inverter node wrapping `inner`, itself packaged as a pollable child
(its state is the decorator's state, its step is `Inverter.update`). -/
def Inverter.asChild {σ : Type} (inner : Child σ) : Child (DecoratorNode σ) :=
  ⟨Inverter.update, ⟨some inner⟩⟩

/-- Data of `BehaviorTree::Repeater`.  The source field is named `repeat`
(a Lean keyword), here `repeatCount`.  `Repeater::update` dereferences
`this->child` without a null check, so the model requires a present
child. -/
structure Repeater (σ : Type) where
  child : Child σ
  repeatCount : ℤ

/-- The `repeat` member value produced by `Repeat::Repeat(repeat)` (source
lines 566-580): the constructor assigns the member only when the argument
is negative, so for a non-negative argument the member keeps its
indeterminate initial value, modelled by the parameter `g`. -/
def Repeat.ctor (g : ℤ) (r : ℤ) : ℤ :=
  if r < 0 then 0 else g

/-- The `repeat` member value after `Repeater::Repeater(child, repeat)`
(source lines 602-618): the base `Repeat` constructor runs first, then the
infinite sentinel is coerced to 0. -/
def Repeater.ctorRepeatField (g : ℤ) (r : ℤ) : ℤ :=
  if r = REPEAT_INFINITE then 0 else Repeat.ctor g r

/-- The `for (int i = 0; i < repeat; i++)` loop of `Repeater::update`:
SUCCESS and FAILURE child results continue the loop, any other result is
returned immediately; a completed loop returns SUCCESS. -/
def repeaterLoop {σ : Type} (delta : ℚ) :
    ℕ → Child σ → NODE_STATE × Child σ
  | 0, c => (NODE_STATE.SUCCESS, c)
  | k + 1, c =>
    let r := c.step c.st delta
    let c' : Child σ := ⟨c.step, r.2⟩
    if r.1 = NODE_STATE.SUCCESS ∨ r.1 = NODE_STATE.FAILURE then
      repeaterLoop delta k c'
    else (r.1, c')

/-- The function `Repeater::update` (source lines 620-645): a zero repeat count is
ERROR; otherwise the child is polled up to `repeat` times within this one
call (`Int.toNat` gives the trip count of the `int` loop, 0 for a negative
bound, exactly as in C++). -/
def Repeater.update {σ : Type} (s : Repeater σ) (delta : ℚ) :
    NODE_STATE × Repeater σ :=
  if s.repeatCount = 0 then (NODE_STATE.ERROR, s)
  else
    let r := repeaterLoop delta s.repeatCount.toNat s.child
    (r.1, { s with child := r.2 })

/-- Data of `BehaviorTree::DelayTime`.  The `result` member is only read
after it has been written (the first visit to the post-delay branch polls
the child before returning), so its initial value is irrelevant; theorems
quantify over it. -/
structure DelayTime (σ : Type) where
  child : Option (Child σ)
  duration : ℚ
  elapsedTime : ℚ
  delayOnce : Bool
  childUpdateFinished : Bool
  result : NODE_STATE

/-- The function `DelayTime::update` (source lines 744-782): while
`0 ≤ elapsedTime < duration` the delta is accumulated and RUNNING is
returned; afterwards the child is polled until it yields a non-RUNNING
result, which is stored; with `delayOnce = false` the elapsed time and the
finished flag are reset so the delay restarts, otherwise the stored result
is returned forever. -/
def DelayTime.update {σ : Type} (s : DelayTime σ) (delta : ℚ) :
    NODE_STATE × DelayTime σ :=
  match s.child with
  | none => (NODE_STATE.ERROR, s)
  | some c =>
    if 0 ≤ s.elapsedTime ∧ s.elapsedTime < s.duration then
      (NODE_STATE.RUNNING, { s with elapsedTime := s.elapsedTime + delta })
    else if s.childUpdateFinished = false then
      let r := c.step c.st delta
      let s' : DelayTime σ :=
        { s with child := some ⟨c.step, r.2⟩, result := r.1 }
      if r.1 ≠ NODE_STATE.RUNNING then
        if s.delayOnce = false then
          (r.1, { s' with elapsedTime := 0, childUpdateFinished := false })
        else (r.1, { s' with childUpdateFinished := true })
      else (r.1, s')
    else (s.result, s)

/-- Data of `BehaviorTree::TimeLimit` (class declaration absent from the
revision's header; members inferred from the constructors at source lines
787-789: `duration`, `elapsedTime`, `failed`, the last never read by
`update`). -/
structure TimeLimit (σ : Type) where
  child : Option (Child σ)
  duration : ℚ
  elapsedTime : ℚ
  failed : Bool

/-- The function `TimeLimit::update` (source lines 791-819): a missing child is ERROR;
once `elapsedTime ≥ duration` the child is polled, RUNNING becomes FAILURE
with the elapsed time reset, any other child result is returned unchanged
(without a reset); while `elapsedTime < duration` the delta is accumulated
and control falls off the end of the non-void function — the returned
status is undefined, modelled as `none`. -/
def TimeLimit.update {σ : Type} (s : TimeLimit σ) (delta : ℚ) :
    Option NODE_STATE × TimeLimit σ :=
  match s.child with
  | none => (some NODE_STATE.ERROR, s)
  | some c =>
    if s.duration ≤ s.elapsedTime then
      let r := c.step c.st delta
      let s' : TimeLimit σ := { s with child := some ⟨c.step, r.2⟩ }
      if r.1 = NODE_STATE.RUNNING then
        (some NODE_STATE.FAILURE, { s' with elapsedTime := 0 })
      else (some r.1, s')
    else (none, { s with elapsedTime := s.elapsedTime + delta })

/-- Leaf node used in the concrete theorems: its state is the number of
times it has been polled, and the status of its n-th poll (counted from 0)
is `script n`. -/
def scriptChild (script : ℕ → NODE_STATE) : Child ℕ :=
  ⟨fun n _ => (script n, n + 1), 0⟩

/-- Replacing the child at a position by one with the same step function
(only its state advanced) does not change the list of step functions. -/
theorem map_step_set {σ : Type} (l : List (Child σ)) (i : ℕ) (h : i < l.length)
    (x : σ) :
    (l.set i ⟨(l.get ⟨i, h⟩).step, x⟩).map Child.step = l.map Child.step := by
  induction l generalizing i with
  | nil => simp at h
  | cons a t ih =>
    cases i with
    | zero => simp
    | succ k =>
      simp only [List.length_cons, Nat.succ_lt_succ_iff] at h
      simp only [List.set, List.map_cons, List.cons.injEq, true_and]
      exact ih k h

/-- Structural facts about the `updateChildren` loop: it preserves the
number of children, their step functions and the stored cap, and it either
leaves the running-child index untouched or records an in-range index while
returning RUNNING. -/
theorem updateChildrenFrom_spec {σ : Type} (ie : Bool) (d : ℚ)
    (cc : NODE_STATE) :
    ∀ (fuel : ℕ) (s : CompositeNode σ) (i : ℕ),
      ((updateChildrenFrom ie d cc fuel s i).2.children.length
          = s.children.length)
    ∧ ((updateChildrenFrom ie d cc fuel s i).2.children.map Child.step
          = s.children.map Child.step)
    ∧ ((updateChildrenFrom ie d cc fuel s i).2.maxChildrenSize
          = s.maxChildrenSize)
    ∧ ((updateChildrenFrom ie d cc fuel s i).2.runningChildIndex
          = s.runningChildIndex
       ∨ ((updateChildrenFrom ie d cc fuel s i).1 = NODE_STATE.RUNNING
          ∧ ∃ j, (updateChildrenFrom ie d cc fuel s i).2.runningChildIndex
                   = some j
               ∧ j < s.children.length)) := by
  intro fuel
  induction fuel with
  | zero => intro s i; simp [updateChildrenFrom]
  | succ k ih =>
    intro s i
    by_cases h : i < s.children.length
    · have hlen : (s.children.set i
          ⟨(s.children.get ⟨i, h⟩).step,
           ((s.children.get ⟨i, h⟩).step (s.children.get ⟨i, h⟩).st d).2⟩).length
          = s.children.length := by simp
      simp only [updateChildrenFrom, dif_pos h]
      set c := s.children.get ⟨i, h⟩ with hc
      set r := c.step c.st d with hr
      set s' : CompositeNode σ :=
        { s with children := s.children.set i ⟨c.step, r.2⟩ } with hs'
      have hs'len : s'.children.length = s.children.length := by
        simp [hs']
      have hs'map : s'.children.map Child.step = s.children.map Child.step := by
        simpa [hs'] using map_step_set s.children i h r.2
      have hs'max : s'.maxChildrenSize = s.maxChildrenSize := rfl
      have hs'idx : s'.runningChildIndex = s.runningChildIndex := rfl
      by_cases h1 : r.1 = cc
      · rw [if_pos h1]
        obtain ⟨l1, l2, l3, l4⟩ := ih s' (i + 1)
        refine ⟨l1.trans hs'len, l2.trans hs'map, l3.trans hs'max, ?_⟩
        rcases l4 with l4 | ⟨hrun, j, hj, hjlt⟩
        · exact Or.inl (l4.trans hs'idx)
        · exact Or.inr ⟨hrun, j, hj, hjlt.trans_eq hs'len⟩
      · by_cases h2 : r.1 = NODE_STATE.ERROR
        · by_cases h3 : ie
          · rw [if_neg h1, if_pos h2, if_pos h3]
            obtain ⟨l1, l2, l3, l4⟩ := ih s' (i + 1)
            refine ⟨l1.trans hs'len, l2.trans hs'map, l3.trans hs'max, ?_⟩
            rcases l4 with l4 | ⟨hrun, j, hj, hjlt⟩
            · exact Or.inl (l4.trans hs'idx)
            · exact Or.inr ⟨hrun, j, hj, hjlt.trans_eq hs'len⟩
          · rw [if_neg h1, if_pos h2, if_neg h3]
            exact ⟨hs'len, hs'map, hs'max, Or.inl hs'idx⟩
        · by_cases h4 : r.1 = NODE_STATE.RUNNING
          · rw [if_neg h1, if_neg h2, if_pos h4]
            exact ⟨hs'len, hs'map, hs'max, Or.inr ⟨rfl, i, rfl, h⟩⟩
          · rw [if_neg h1, if_neg h2, if_neg h4]
            exact ⟨hs'len, hs'map, hs'max, Or.inl hs'idx⟩
    · simp [updateChildrenFrom, dif_neg h]

/-- Structural facts about `updateRunningChild`: it preserves the number of
children, their step functions and the cap; it never reports ERROR (a child
ERROR is reported as FAILURE — the fall-through of the source); with an
invalid index it is the identity returning FAILURE; with a valid index the
resulting running index is either cleared or kept together with a RUNNING
result. -/
theorem updateRunningChild_spec {σ : Type} (s : CompositeNode σ) (d : ℚ)
    (start : ℕ) :
      ((updateRunningChild s d start).2.1.children.length = s.children.length)
    ∧ ((updateRunningChild s d start).2.1.children.map Child.step
        = s.children.map Child.step)
    ∧ ((updateRunningChild s d start).2.1.maxChildrenSize = s.maxChildrenSize)
    ∧ ((updateRunningChild s d start).1 ≠ NODE_STATE.ERROR)
    ∧ (isRunningChildIndexValid s = false →
        updateRunningChild s d start = (NODE_STATE.FAILURE, s, start))
    ∧ (isRunningChildIndexValid s = true →
        ((updateRunningChild s d start).2.1.runningChildIndex = none
         ∨ ((updateRunningChild s d start).1 = NODE_STATE.RUNNING
            ∧ (updateRunningChild s d start).2.1.runningChildIndex
                = s.runningChildIndex))) := by
  rcases hidx : s.runningChildIndex with _ | idx
  · have heq : updateRunningChild s d start = (NODE_STATE.FAILURE, s, start) := by
      simp [updateRunningChild, hidx]
    have hval : isRunningChildIndexValid s = false := by
      simp [isRunningChildIndexValid, hidx]
    rw [heq]
    simp [hval]
  · by_cases h : idx < s.children.length
    · have hval : isRunningChildIndexValid s = true := by
        simp [isRunningChildIndexValid, hidx, h]
      simp only [updateRunningChild, hidx, dif_pos h]
      set c := s.children.get ⟨idx, h⟩ with hc
      set r := c.step c.st d with hr
      have hmap : (s.children.set idx ⟨c.step, r.2⟩).map Child.step
          = s.children.map Child.step := map_step_set s.children idx h r.2
      by_cases h1 : r.1 = NODE_STATE.RUNNING
      · rw [if_pos h1]
        refine ⟨by simp, hmap, rfl, by simp [h1], fun hcontra => ?_,
          fun _ => Or.inr ⟨h1, rfl⟩⟩
        rw [hval] at hcontra
        cases hcontra
      · by_cases h2 : r.1 = NODE_STATE.SUCCESS
        · rw [if_neg h1, if_pos h2]
          refine ⟨by simp, hmap, rfl, by simp [h2], fun hcontra => ?_,
            fun _ => Or.inl rfl⟩
          rw [hval] at hcontra
          cases hcontra
        · rw [if_neg h1, if_neg h2]
          refine ⟨by simp, hmap, rfl, by simp, fun hcontra => ?_,
            fun _ => Or.inl rfl⟩
          rw [hval] at hcontra
          cases hcontra
    · have hval : isRunningChildIndexValid s = false := by
        simp [isRunningChildIndexValid, hidx, h]
      have heq : updateRunningChild s d start = (NODE_STATE.FAILURE, s, start) := by
        simp only [updateRunningChild, hidx, dif_neg h]
      rw [heq]
      simp [hval]

/-- The facts of `updateChildrenFrom_spec`, restated for the
`updateChildren` wrapper. -/
theorem updateChildren_spec {σ : Type} (ie : Bool) (s : CompositeNode σ)
    (start : ℕ) (d : ℚ) (cc : NODE_STATE) :
      ((updateChildren ie s start d cc).2.children.length = s.children.length)
    ∧ ((updateChildren ie s start d cc).2.children.map Child.step
        = s.children.map Child.step)
    ∧ ((updateChildren ie s start d cc).2.maxChildrenSize
        = s.maxChildrenSize)
    ∧ ((updateChildren ie s start d cc).2.runningChildIndex
        = s.runningChildIndex
       ∨ ((updateChildren ie s start d cc).1 = NODE_STATE.RUNNING
          ∧ ∃ j, (updateChildren ie s start d cc).2.runningChildIndex = some j
               ∧ j < s.children.length)) :=
  updateChildrenFrom_spec ie d cc (s.children.length - start) s start

/-- Validity of the remembered running-child index: if it is set, it is in
range of the current children list. -/
def runningIndexOk {σ : Type} (s : CompositeNode σ) : Prop :=
  ∀ i, s.runningChildIndex = some i → i < s.children.length

/-- Under the validity invariant, a failed `isRunningChildIndexValid` check
means that no index is remembered at all. -/
theorem none_of_invalid {σ : Type} (s : CompositeNode σ)
    (h : isRunningChildIndexValid s = false) (hok : runningIndexOk s) :
    s.runningChildIndex = none := by
  rcases hidx : s.runningChildIndex with _ | i
  · rfl
  · exfalso
    have hi := hok i hidx
    simp [isRunningChildIndexValid, hidx, hi] at h

/-- The function `Selector::update` preserves the running-index validity invariant, and
any index remembered after the call comes with a RUNNING result. -/
theorem selectorUpdate_inv {σ : Type} (ie : Bool) (s : CompositeNode σ)
    (d : ℚ) (hok : runningIndexOk s) :
    runningIndexOk (Selector.update ie s d).2
  ∧ ((Selector.update ie s d).2.runningChildIndex.isSome →
      (Selector.update ie s d).1 = NODE_STATE.RUNNING) := by
  by_cases hemp : s.children.isEmpty
  · simp only [Selector.update, if_pos hemp]
    have hnil : s.children = [] := by simpa using hemp
    refine ⟨hok, fun hs => ?_⟩
    exfalso
    rcases hidx : s.runningChildIndex with _ | i
    · rw [hidx] at hs; cases hs
    · have hi := hok i hidx
      rw [hnil] at hi
      simp at hi
  · by_cases hval : isRunningChildIndexValid s
    · simp only [Selector.update, if_neg hemp, if_pos hval]
      obtain ⟨r1len, r1map, r1max, r1ne, r1inv, r1val⟩ :=
        updateRunningChild_spec s d 0
      by_cases hA : (updateRunningChild s d 0).1 = NODE_STATE.SUCCESS
          ∨ (updateRunningChild s d 0).1 = NODE_STATE.RUNNING
      · rw [if_pos hA]
        rcases r1val hval with hnone | ⟨hrun, hkeep⟩
        · refine ⟨fun i hi => ?_, fun hs => ?_⟩
          · rw [hnone] at hi; cases hi
          · rw [hnone] at hs; cases hs
        · refine ⟨fun i hi => ?_, fun _ => hrun⟩
          rw [hkeep] at hi
          have := hok i hi
          show i < (updateRunningChild s d 0).2.1.children.length
          omega
      · rw [if_neg hA]
        by_cases hB : (updateRunningChild s d 0).1 = NODE_STATE.ERROR
            ∧ ie = false
        · exact absurd hB.1 r1ne
        · rw [if_neg hB]
          have hnone : (updateRunningChild s d 0).2.1.runningChildIndex
              = none := by
            rcases r1val hval with hnone | ⟨hrun, _⟩
            · exact hnone
            · exact absurd (Or.inr hrun) hA
          obtain ⟨u1len, u1map, u1max, u1idx⟩ :=
            updateChildren_spec ie (updateRunningChild s d 0).2.1
              (updateRunningChild s d 0).2.2 d NODE_STATE.FAILURE
          rcases u1idx with hsame | ⟨hrunning, j, hj, hjlt⟩
          · refine ⟨fun i hi => ?_, fun hs => ?_⟩
            · rw [hsame, hnone] at hi; cases hi
            · rw [hsame, hnone] at hs; cases hs
          · refine ⟨fun i hi => ?_, fun _ => hrunning⟩
            rw [hj] at hi
            cases hi
            omega
    · have hval' : isRunningChildIndexValid s = false := by
        simpa using hval
      simp only [Selector.update, if_neg hemp, if_neg hval]
      have hnone := none_of_invalid s hval' hok
      obtain ⟨u1len, u1map, u1max, u1idx⟩ :=
        updateChildren_spec ie s 0 d NODE_STATE.FAILURE
      rcases u1idx with hsame | ⟨hrunning, j, hj, hjlt⟩
      · refine ⟨fun i hi => ?_, fun hs => ?_⟩
        · rw [hsame, hnone] at hi; cases hi
        · rw [hsame, hnone] at hs; cases hs
      · refine ⟨fun i hi => ?_, fun _ => hrunning⟩
        rw [hj] at hi
        cases hi
        omega

/-- The function `Sequence::update` preserves the running-index validity invariant, and
any index remembered after the call comes with a RUNNING result. -/
theorem sequenceUpdate_inv {σ : Type} (ie : Bool) (s : CompositeNode σ)
    (d : ℚ) (hok : runningIndexOk s) :
    runningIndexOk (Sequence.update ie s d).2
  ∧ ((Sequence.update ie s d).2.runningChildIndex.isSome →
      (Sequence.update ie s d).1 = NODE_STATE.RUNNING) := by
  by_cases hemp : s.children.isEmpty
  · simp only [Sequence.update, if_pos hemp]
    have hnil : s.children = [] := by simpa using hemp
    refine ⟨hok, fun hs => ?_⟩
    exfalso
    rcases hidx : s.runningChildIndex with _ | i
    · rw [hidx] at hs; cases hs
    · have hi := hok i hidx
      rw [hnil] at hi
      simp at hi
  · by_cases hval : isRunningChildIndexValid s
    · simp only [Sequence.update, if_neg hemp, if_pos hval]
      obtain ⟨r1len, r1map, r1max, r1ne, r1inv, r1val⟩ :=
        updateRunningChild_spec s d 0
      by_cases hA : (updateRunningChild s d 0).1 = NODE_STATE.FAILURE
          ∨ (updateRunningChild s d 0).1 = NODE_STATE.RUNNING
      · rw [if_pos hA]
        rcases r1val hval with hnone | ⟨hrun, hkeep⟩
        · refine ⟨fun i hi => ?_, fun hs => ?_⟩
          · rw [hnone] at hi; cases hi
          · rw [hnone] at hs; cases hs
        · refine ⟨fun i hi => ?_, fun _ => hrun⟩
          rw [hkeep] at hi
          have := hok i hi
          show i < (updateRunningChild s d 0).2.1.children.length
          omega
      · rw [if_neg hA]
        by_cases hB : (updateRunningChild s d 0).1 = NODE_STATE.ERROR
            ∧ ie = false
        · exact absurd hB.1 r1ne
        · rw [if_neg hB]
          have hnone : (updateRunningChild s d 0).2.1.runningChildIndex
              = none := by
            rcases r1val hval with hnone | ⟨hrun, _⟩
            · exact hnone
            · exact absurd (Or.inr hrun) hA
          obtain ⟨u1len, u1map, u1max, u1idx⟩ :=
            updateChildren_spec ie (updateRunningChild s d 0).2.1
              (updateRunningChild s d 0).2.2 d NODE_STATE.SUCCESS
          rcases u1idx with hsame | ⟨hrunning, j, hj, hjlt⟩
          · refine ⟨fun i hi => ?_, fun hs => ?_⟩
            · rw [hsame, hnone] at hi; cases hi
            · rw [hsame, hnone] at hs; cases hs
          · refine ⟨fun i hi => ?_, fun _ => hrunning⟩
            rw [hj] at hi
            cases hi
            omega
    · have hval' : isRunningChildIndexValid s = false := by
        simpa using hval
      simp only [Sequence.update, if_neg hemp, if_neg hval]
      have hnone := none_of_invalid s hval' hok
      obtain ⟨u1len, u1map, u1max, u1idx⟩ :=
        updateChildren_spec ie s 0 d NODE_STATE.SUCCESS
      rcases u1idx with hsame | ⟨hrunning, j, hj, hjlt⟩
      · refine ⟨fun i hi => ?_, fun hs => ?_⟩
        · rw [hsame, hnone] at hi; cases hi
        · rw [hsame, hnone] at hs; cases hs
      · refine ⟨fun i hi => ?_, fun _ => hrunning⟩
        rw [hj] at hi
        cases hi
        omega

/-- The function `Selector::update` never changes which children the composite holds or
their order: the list of step functions and the length are preserved. -/
theorem selectorUpdate_steps {σ : Type} (ie : Bool) (s : CompositeNode σ)
    (d : ℚ) :
    ((Selector.update ie s d).2.children.map Child.step
        = s.children.map Child.step)
  ∧ ((Selector.update ie s d).2.children.length = s.children.length) := by
  by_cases hemp : s.children.isEmpty
  · simp only [Selector.update, if_pos hemp]
    exact ⟨trivial, trivial⟩
  · by_cases hval : isRunningChildIndexValid s
    · simp only [Selector.update, if_neg hemp, if_pos hval]
      obtain ⟨r1len, r1map, _, _, _, _⟩ := updateRunningChild_spec s d 0
      by_cases hA : (updateRunningChild s d 0).1 = NODE_STATE.SUCCESS
          ∨ (updateRunningChild s d 0).1 = NODE_STATE.RUNNING
      · rw [if_pos hA]
        exact ⟨r1map, r1len⟩
      · rw [if_neg hA]
        by_cases hB : (updateRunningChild s d 0).1 = NODE_STATE.ERROR
            ∧ ie = false
        · rw [if_pos hB]
          exact ⟨r1map, r1len⟩
        · rw [if_neg hB]
          obtain ⟨u1len, u1map, _, _⟩ :=
            updateChildren_spec ie (updateRunningChild s d 0).2.1
              (updateRunningChild s d 0).2.2 d NODE_STATE.FAILURE
          exact ⟨u1map.trans r1map, u1len.trans r1len⟩
    · simp only [Selector.update, if_neg hemp, if_neg hval]
      obtain ⟨u1len, u1map, _, _⟩ :=
        updateChildren_spec ie s 0 d NODE_STATE.FAILURE
      exact ⟨u1map, u1len⟩

/-- The function `Sequence::update` never changes which children the composite holds or
their order: the list of step functions and the length are preserved. -/
theorem sequenceUpdate_steps {σ : Type} (ie : Bool) (s : CompositeNode σ)
    (d : ℚ) :
    ((Sequence.update ie s d).2.children.map Child.step
        = s.children.map Child.step)
  ∧ ((Sequence.update ie s d).2.children.length = s.children.length) := by
  by_cases hemp : s.children.isEmpty
  · simp only [Sequence.update, if_pos hemp]
    exact ⟨trivial, trivial⟩
  · by_cases hval : isRunningChildIndexValid s
    · simp only [Sequence.update, if_neg hemp, if_pos hval]
      obtain ⟨r1len, r1map, _, _, _, _⟩ := updateRunningChild_spec s d 0
      by_cases hA : (updateRunningChild s d 0).1 = NODE_STATE.FAILURE
          ∨ (updateRunningChild s d 0).1 = NODE_STATE.RUNNING
      · rw [if_pos hA]
        exact ⟨r1map, r1len⟩
      · rw [if_neg hA]
        by_cases hB : (updateRunningChild s d 0).1 = NODE_STATE.ERROR
            ∧ ie = false
        · rw [if_pos hB]
          exact ⟨r1map, r1len⟩
        · rw [if_neg hB]
          obtain ⟨u1len, u1map, _, _⟩ :=
            updateChildren_spec ie (updateRunningChild s d 0).2.1
              (updateRunningChild s d 0).2.2 d NODE_STATE.SUCCESS
          exact ⟨u1map.trans r1map, u1len.trans r1len⟩
    · simp only [Sequence.update, if_neg hemp, if_neg hval]
      obtain ⟨u1len, u1map, _, _⟩ :=
        updateChildren_spec ie s 0 d NODE_STATE.SUCCESS
      exact ⟨u1map, u1len⟩

/-- A child that succeeds on its first poll and fails on every later poll. -/
def successThenFailChild : Child ℕ :=
  scriptChild (fun n => if n = 0 then NODE_STATE.SUCCESS else NODE_STATE.FAILURE)

/-- A child that is RUNNING on its first poll and succeeds on every later
poll. -/
def runThenSuccessChild : Child ℕ :=
  scriptChild (fun n => if n = 0 then NODE_STATE.RUNNING else NODE_STATE.SUCCESS)

/-- A child that returns ERROR on every poll. -/
def alwaysErrorChild : Child ℕ := scriptChild (fun _ => NODE_STATE.ERROR)

/-- A child that returns SUCCESS on every poll. -/
def alwaysSuccessChild : Child ℕ := scriptChild (fun _ => NODE_STATE.SUCCESS)

/-- A child that returns RUNNING on every poll. -/
def alwaysRunningChild : Child ℕ := scriptChild (fun _ => NODE_STATE.RUNNING)

/-- C2: every composite node (Selector, RandomSelector, Sequence,
RandomSequence) with zero children returns ERROR from `update` immediately,
for every delta, flag value and stored state, leaving the node completely
unchanged — in particular no node is polled. -/
theorem C2_empty_composite_update_errors {σ : Type} (ignoreError : Bool)
    (sh : List (Child σ) → List (Child σ)) (cap : ℤ) (idx : Option ℕ)
    (ns : Bool) (delta : ℚ) :
    Selector.update ignoreError (⟨[], cap, idx⟩ : CompositeNode σ) delta
        = (NODE_STATE.ERROR, ⟨[], cap, idx⟩)
  ∧ Sequence.update ignoreError (⟨[], cap, idx⟩ : CompositeNode σ) delta
        = (NODE_STATE.ERROR, ⟨[], cap, idx⟩)
  ∧ RandomSelector.update ignoreError sh ⟨⟨[], cap, idx⟩, ns⟩ delta
        = (NODE_STATE.ERROR, ⟨⟨[], cap, idx⟩, ns⟩)
  ∧ RandomSequence.update ignoreError sh ⟨⟨[], cap, idx⟩, ns⟩ delta
        = (NODE_STATE.ERROR, ⟨⟨[], cap, idx⟩, ns⟩) := by
  refine ⟨?_, ?_, ?_, ?_⟩ <;>
    simp [Selector.update, Sequence.update, RandomSelector.update,
      RandomSequence.update]

/-- C10: for every child node and every status it returns, an Inverter
wrapping an Inverter wrapping that child returns exactly the status the
child returned: double inversion is the identity on the observable
status. -/
theorem C10_double_inverter_identity {σ : Type} (c : Child σ) (delta : ℚ) :
    (Inverter.update ⟨some (Inverter.asChild c)⟩ delta).1
      = (c.step c.st delta).1 := by
  rcases hstep : c.step c.st delta with ⟨st0, s2⟩
  cases st0 <;> simp [Inverter.update, Inverter.asChild, hstep]

/-- C1 (evaluation of the defect): a Sequence over the children
`[successThenFailChild, runThenSuccessChild]` leaves child 1 remembered as
RUNNING after tick 1; on tick 2 the resumed child 1 returns SUCCESS, yet
the iteration restarts at index 0 (the start index is not advanced by
`updateRunningChild` on SUCCESS), so the earlier sibling is re-polled (its
poll count rises to 2) and the overall result is its fresh FAILURE —
whereas the claim requires continuing from index 2, polling no earlier
sibling and yielding SUCCESS. -/
theorem C1_sequence_resume_restarts_at_zero :
    (Sequence.update true
        ⟨[successThenFailChild, runThenSuccessChild], INFINITE_CHILDREN, none⟩
        1).1 = NODE_STATE.RUNNING
  ∧ (Sequence.update true
        ⟨[successThenFailChild, runThenSuccessChild], INFINITE_CHILDREN, none⟩
        1).2.runningChildIndex = some 1
  ∧ (Sequence.update true
        (Sequence.update true
          ⟨[successThenFailChild, runThenSuccessChild], INFINITE_CHILDREN,
           none⟩ 1).2 1).1 = NODE_STATE.FAILURE
  ∧ ((Sequence.update true
        (Sequence.update true
          ⟨[successThenFailChild, runThenSuccessChild], INFINITE_CHILDREN,
           none⟩ 1).2 1).2.children.map Child.st) = [2, 2] := by
  exact ⟨rfl, rfl, rfl, rfl⟩

/-- C3 (evaluation of the defect): a Selector whose remembered running
child 0 returns ERROR, polled with the global ignore-error flag false, does
not return ERROR: `updateRunningChild` reports the ERROR as FAILURE (its
fall-through), the flag is never consulted, iteration continues at index 1
and the Selector returns the sibling's SUCCESS.  The sibling's poll count 1
shows that iteration continued. -/
theorem C3_selector_resume_error_ignores_flag :
    (Selector.update false
        ⟨[alwaysErrorChild, alwaysSuccessChild], INFINITE_CHILDREN, some 0⟩
        1).1 = NODE_STATE.SUCCESS
  ∧ ((Selector.update false
        ⟨[alwaysErrorChild, alwaysSuccessChild], INFINITE_CHILDREN, some 0⟩
        1).2.children.map Child.st) = [1, 1]
  ∧ (Selector.update false
        ⟨[alwaysErrorChild, alwaysSuccessChild], INFINITE_CHILDREN, some 0⟩
        1).2.runningChildIndex = none := by
  exact ⟨rfl, rfl, rfl⟩

/-- C5 (evaluation of the defect): the `Repeat`/`Repeater` constructors
assign the `repeat` member only for a negative or infinite argument, so
`Repeater(child, 5)` leaves the member at its indeterminate initial value
`g`; with `g = 0` the update returns ERROR after zero child polls instead
of the claimed SUCCESS after exactly five.  With the member actually
holding 5, `update` does behave as the claim states (SUCCESS after exactly
five polls of an always-SUCCESS child), isolating the defect in the
constructor. -/
theorem C5_repeater_ctor_drops_count :
    Repeater.ctorRepeatField 0 5 = 0
  ∧ (Repeater.update ⟨alwaysSuccessChild, Repeater.ctorRepeatField 0 5⟩ 1).1
        = NODE_STATE.ERROR
  ∧ (Repeater.update ⟨alwaysSuccessChild, Repeater.ctorRepeatField 0 5⟩
        1).2.child.st = 0
  ∧ (Repeater.update ⟨alwaysSuccessChild, 5⟩ 1).1 = NODE_STATE.SUCCESS
  ∧ (Repeater.update ⟨alwaysSuccessChild, 5⟩ 1).2.child.st = 5 := by
  exact ⟨rfl, rfl, rfl, rfl, rfl⟩

/-- C8 (evaluation of the defect): shrinking a composite (cap 5, three
children) to 2 with `cleanUpRemains` enters the cleanup loop
`for (; i < childrenSize; i)`, whose index is never incremented: the call
never terminates.  Without `cleanUpRemains` the children are truncated to
two, but the stored cap stays 5 and control falls off the end of the
non-void function, so no defined boolean is returned.  The rejection of 0
does hold. -/
theorem C8_setMaxChildrenSize_truncation_defect :
    setMaxChildrenSize
        (⟨[alwaysSuccessChild, alwaysSuccessChild, alwaysSuccessChild], 5,
          none⟩ : CompositeNode ℕ) 2 true = SetMaxResult.hang
  ∧ setMaxChildrenSize
        (⟨[alwaysSuccessChild, alwaysSuccessChild, alwaysSuccessChild], 5,
          none⟩ : CompositeNode ℕ) 2 false
      = SetMaxResult.noReturn ⟨[alwaysSuccessChild, alwaysSuccessChild], 5,
          none⟩
  ∧ setMaxChildrenSize
        (⟨[alwaysSuccessChild, alwaysSuccessChild, alwaysSuccessChild], 5,
          none⟩ : CompositeNode ℕ) 0 true
      = SetMaxResult.ret false ⟨[alwaysSuccessChild, alwaysSuccessChild,
          alwaysSuccessChild], 5, none⟩ := by
  exact ⟨rfl, rfl, rfl⟩

/-- C4: an update of a RandomSelector or RandomSequence made while a child
is remembered as RUNNING never permutes the children order: the call does
not depend on the shuffle at all, and the ordered list of children (their
step functions) after the call equals the one before it, so the same child
remains at the remembered index.  Contrapositively, a reshuffle can occur
only in a call where no running child is remembered. -/
theorem C4_no_reshuffle_while_running {σ : Type} (ignoreError : Bool)
    (sh : List (Child σ) → List (Child σ)) (s : RandomComposite σ)
    (delta : ℚ) (i : ℕ) (h : s.base.runningChildIndex = some i) :
    RandomSelector.update ignoreError sh s delta
        = RandomSelector.update ignoreError (fun l => l) s delta
  ∧ RandomSequence.update ignoreError sh s delta
        = RandomSequence.update ignoreError (fun l => l) s delta
  ∧ (RandomSelector.update ignoreError sh s delta).2.base.children.map
        Child.step = s.base.children.map Child.step
  ∧ (RandomSequence.update ignoreError sh s delta).2.base.children.map
        Child.step = s.base.children.map Child.step := by
  have hcond : ¬(s.base.runningChildIndex = none ∧ s.needShuffle) := by
    simp [h]
  by_cases hemp : s.base.children.isEmpty
  · refine ⟨?_, ?_, ?_, ?_⟩ <;>
      simp [RandomSelector.update, RandomSequence.update, hemp]
  · simp only [RandomSelector.update, RandomSequence.update, if_neg hemp,
      if_neg hcond]
    exact ⟨trivial, trivial, (selectorUpdate_steps ignoreError s.base delta).1,
      (sequenceUpdate_steps ignoreError s.base delta).1⟩

/-- Witness for C4 at a concrete input: a RandomSelector/RandomSequence
state with one always-RUNNING child remembered at index 0, an actual
reversal as the shuffle, and delta 1. -/
theorem C4_no_reshuffle_while_running_witness :
    RandomSelector.update true List.reverse
        ⟨⟨[alwaysRunningChild], INFINITE_CHILDREN, some 0⟩, true⟩ 1
      = RandomSelector.update true (fun l => l)
        ⟨⟨[alwaysRunningChild], INFINITE_CHILDREN, some 0⟩, true⟩ 1
  ∧ RandomSequence.update true List.reverse
        ⟨⟨[alwaysRunningChild], INFINITE_CHILDREN, some 0⟩, true⟩ 1
      = RandomSequence.update true (fun l => l)
        ⟨⟨[alwaysRunningChild], INFINITE_CHILDREN, some 0⟩, true⟩ 1
  ∧ (RandomSelector.update true List.reverse
        ⟨⟨[alwaysRunningChild], INFINITE_CHILDREN, some 0⟩, true⟩
        1).2.base.children.map Child.step
      = ([alwaysRunningChild] : List (Child ℕ)).map Child.step
  ∧ (RandomSequence.update true List.reverse
        ⟨⟨[alwaysRunningChild], INFINITE_CHILDREN, some 0⟩, true⟩
        1).2.base.children.map Child.step
      = ([alwaysRunningChild] : List (Child ℕ)).map Child.step :=
  C4_no_reshuffle_while_running true List.reverse
    ⟨⟨[alwaysRunningChild], INFINITE_CHILDREN, some 0⟩, true⟩ 1 0 rfl

/-- The statuses returned by polling a DelayTime node once per tick with
delta 1, for `n` consecutive ticks. -/
def delayTimeTrace {σ : Type} : ℕ → DelayTime σ → List NODE_STATE
  | 0, _ => []
  | n + 1, s =>
    (DelayTime.update s 1).1 :: delayTimeTrace n (DelayTime.update s 1).2

/-- C6: a DelayTime with duration 2 and `once = false`, polled with delta 1
per tick over a child whose first poll yields the terminal status `t`,
returns RUNNING on ticks 1 and 2 while accumulating time, polls the child
on tick 3 and returns `t`, and — the elapsed time having been reset —
returns RUNNING again on ticks 4 and 5.  Additionally (final conjunct),
whenever the delay has expired and the child reports RUNNING, the update
returns the child's RUNNING, polls the child and leaves the elapsed time
and the finished flag unchanged, so the next tick re-polls the child
without re-delaying. -/
theorem C6_delaytime_duration2_once_false {σ : Type} (c : Child σ)
    (t : NODE_STATE) (r0 : NODE_STATE) (hterm : t ≠ NODE_STATE.RUNNING)
    (hstep : (c.step c.st 1).1 = t) :
    delayTimeTrace 5 (⟨some c, 2, 0, false, false, r0⟩ : DelayTime σ)
      = [NODE_STATE.RUNNING, NODE_STATE.RUNNING, t, NODE_STATE.RUNNING,
         NODE_STATE.RUNNING]
  ∧ (∀ (s : DelayTime σ) (c' : Child σ) (d : ℚ), s.child = some c' →
      s.duration ≤ s.elapsedTime → s.childUpdateFinished = false →
      (c'.step c'.st d).1 = NODE_STATE.RUNNING →
      DelayTime.update s d
        = (NODE_STATE.RUNNING,
           { s with child := some ⟨c'.step, (c'.step c'.st d).2⟩,
                    result := NODE_STATE.RUNNING })) := by
  constructor
  · have h1 : DelayTime.update (⟨some c, 2, 0, false, false, r0⟩ : DelayTime σ) 1
        = (NODE_STATE.RUNNING, ⟨some c, 2, 1, false, false, r0⟩) := by
      norm_num [DelayTime.update]
    have h2 : DelayTime.update (⟨some c, 2, 1, false, false, r0⟩ : DelayTime σ) 1
        = (NODE_STATE.RUNNING, ⟨some c, 2, 2, false, false, r0⟩) := by
      norm_num [DelayTime.update]
    have h3 : DelayTime.update (⟨some c, 2, 2, false, false, r0⟩ : DelayTime σ) 1
        = (t, ⟨some ⟨c.step, (c.step c.st 1).2⟩, 2, 0, false, false, t⟩) := by
      norm_num [DelayTime.update, hstep, hterm]
    have h4 : DelayTime.update
        (⟨some ⟨c.step, (c.step c.st 1).2⟩, 2, 0, false, false, t⟩ :
          DelayTime σ) 1
        = (NODE_STATE.RUNNING,
           ⟨some ⟨c.step, (c.step c.st 1).2⟩, 2, 1, false, false, t⟩) := by
      norm_num [DelayTime.update]
    have h5 : DelayTime.update
        (⟨some ⟨c.step, (c.step c.st 1).2⟩, 2, 1, false, false, t⟩ :
          DelayTime σ) 1
        = (NODE_STATE.RUNNING,
           ⟨some ⟨c.step, (c.step c.st 1).2⟩, 2, 2, false, false, t⟩) := by
      norm_num [DelayTime.update]
    simp [delayTimeTrace, h1, h2, h3, h4, h5]
  · intro s c' d hc hge hfin hrun
    have hcond : ¬(0 ≤ s.elapsedTime ∧ s.elapsedTime < s.duration) := by
      rintro ⟨-, hlt⟩
      exact absurd hlt (not_lt.mpr hge)
    simp [DelayTime.update, hc, hcond, hfin, hrun]

/-- Witness for C6 at a concrete input: the always-SUCCESS child, whose
first poll yields the terminal status SUCCESS, and an arbitrary initial
value ERROR for the `result` member. -/
theorem C6_delaytime_duration2_once_false_witness :
    delayTimeTrace 5
        (⟨some alwaysSuccessChild, 2, 0, false, false, NODE_STATE.ERROR⟩ :
          DelayTime ℕ)
      = [NODE_STATE.RUNNING, NODE_STATE.RUNNING, NODE_STATE.SUCCESS,
         NODE_STATE.RUNNING, NODE_STATE.RUNNING]
  ∧ (∀ (s : DelayTime ℕ) (c' : Child ℕ) (d : ℚ), s.child = some c' →
      s.duration ≤ s.elapsedTime → s.childUpdateFinished = false →
      (c'.step c'.st d).1 = NODE_STATE.RUNNING →
      DelayTime.update s d
        = (NODE_STATE.RUNNING,
           { s with child := some ⟨c'.step, (c'.step c'.st d).2⟩,
                    result := NODE_STATE.RUNNING })) :=
  C6_delaytime_duration2_once_false alwaysSuccessChild NODE_STATE.SUCCESS
    NODE_STATE.ERROR (by decide) rfl

/-- C7 counterexample: a TimeLimit with duration 2 and elapsed time 0 over
an always-RUNNING child, polled with delta 1, does not poll the child at
all (its poll count stays 0) and returns no defined status (the source
function ends without executing a return on this path); it only accumulates
the delta.  This contradicts the claim that the child is polled on every
tick while the elapsed time is below the duration. -/
theorem C7_timelimit_counterexample :
    (TimeLimit.update (⟨some alwaysRunningChild, 2, 0, false⟩ :
        TimeLimit ℕ) 1).1 = none
  ∧ ((TimeLimit.update (⟨some alwaysRunningChild, 2, 0, false⟩ :
        TimeLimit ℕ) 1).2.child.map Child.st) = some 0
  ∧ (TimeLimit.update (⟨some alwaysRunningChild, 2, 0, false⟩ :
        TimeLimit ℕ) 1).2.elapsedTime = 1 := by
  exact ⟨rfl, rfl, by norm_num [TimeLimit.update]⟩

/-- C7 (amended): while the elapsed time is below the duration,
`TimeLimit::update` does not poll the child: it only adds the delta to the
elapsed time and returns no defined status (control falls off the end of
the non-void function).  Once the elapsed time has reached the duration,
the child is polled each tick: a RUNNING child result makes the decorator
return FAILURE and reset the elapsed time; any other child result is
returned unchanged, without resetting the elapsed time. -/
theorem C7_timelimit_amended {σ : Type} (s : TimeLimit σ) (c : Child σ)
    (delta : ℚ) (hc : s.child = some c) :
    (s.elapsedTime < s.duration →
        TimeLimit.update s delta
          = (none, { s with elapsedTime := s.elapsedTime + delta }))
  ∧ (s.duration ≤ s.elapsedTime →
        ((c.step c.st delta).1 = NODE_STATE.RUNNING →
            TimeLimit.update s delta
              = (some NODE_STATE.FAILURE,
                 { s with child := some ⟨c.step, (c.step c.st delta).2⟩,
                          elapsedTime := 0 }))
      ∧ ((c.step c.st delta).1 ≠ NODE_STATE.RUNNING →
            TimeLimit.update s delta
              = (some (c.step c.st delta).1,
                 { s with
                     child := some ⟨c.step, (c.step c.st delta).2⟩ }))) := by
  constructor
  · intro hlt
    have hcond : ¬ s.duration ≤ s.elapsedTime := not_le.mpr hlt
    simp [TimeLimit.update, hc, hcond]
  · intro hge
    constructor
    · intro hrun
      simp [TimeLimit.update, hc, hge, hrun]
    · intro hnrun
      simp [TimeLimit.update, hc, hge, hnrun]

/-- Witness for C7's amended statement at a concrete input: a TimeLimit
with duration 2 and elapsed time 5 over the always-RUNNING child. -/
theorem C7_timelimit_amended_witness :
    ((5 : ℚ) < 2 →
        TimeLimit.update (⟨some alwaysRunningChild, 2, 5, false⟩ :
            TimeLimit ℕ) 1
          = (none, { (⟨some alwaysRunningChild, 2, 5, false⟩ :
              TimeLimit ℕ) with elapsedTime := 5 + 1 }))
  ∧ ((2 : ℚ) ≤ 5 →
        ((alwaysRunningChild.step alwaysRunningChild.st 1).1
            = NODE_STATE.RUNNING →
            TimeLimit.update (⟨some alwaysRunningChild, 2, 5, false⟩ :
                TimeLimit ℕ) 1
              = (some NODE_STATE.FAILURE,
                 { (⟨some alwaysRunningChild, 2, 5, false⟩ : TimeLimit ℕ) with
                     child := some ⟨alwaysRunningChild.step,
                       (alwaysRunningChild.step alwaysRunningChild.st 1).2⟩,
                     elapsedTime := 0 }))
      ∧ ((alwaysRunningChild.step alwaysRunningChild.st 1).1
            ≠ NODE_STATE.RUNNING →
            TimeLimit.update (⟨some alwaysRunningChild, 2, 5, false⟩ :
                TimeLimit ℕ) 1
              = (some (alwaysRunningChild.step alwaysRunningChild.st 1).1,
                 { (⟨some alwaysRunningChild, 2, 5, false⟩ : TimeLimit ℕ) with
                     child := some ⟨alwaysRunningChild.step,
                       (alwaysRunningChild.step alwaysRunningChild.st 1).2⟩ }))) :=
  C7_timelimit_amended (⟨some alwaysRunningChild, 2, 5, false⟩ : TimeLimit ℕ)
    alwaysRunningChild 1 rfl

/-- The function `RandomSelector::update` preserves the running-index validity
invariant, and an index remembered after the call comes with a RUNNING
result. -/
theorem randomSelectorUpdate_inv {σ : Type} (ie : Bool)
    (sh : List (Child σ) → List (Child σ)) (rs : RandomComposite σ) (d : ℚ)
    (hok : runningIndexOk rs.base) :
    runningIndexOk (RandomSelector.update ie sh rs d).2.base
  ∧ ((RandomSelector.update ie sh rs d).2.base.runningChildIndex.isSome →
      (RandomSelector.update ie sh rs d).1 = NODE_STATE.RUNNING) := by
  by_cases hemp : rs.base.children.isEmpty
  · simp only [RandomSelector.update, if_pos hemp]
    have hnil : rs.base.children = [] := by simpa using hemp
    refine ⟨hok, fun hs => ?_⟩
    exfalso
    rcases hidx : rs.base.runningChildIndex with _ | i
    · rw [hidx] at hs; cases hs
    · have hi := hok i hidx
      rw [hnil] at hi
      simp at hi
  · simp only [RandomSelector.update, if_neg hemp]
    by_cases hcond : rs.base.runningChildIndex = none ∧ rs.needShuffle
    · rw [if_pos hcond]
      have hok1 : runningIndexOk
          { rs.base with children := sh rs.base.children } := by
        intro i hi
        rw [show ({ rs.base with children := sh rs.base.children } :
            CompositeNode σ).runningChildIndex = rs.base.runningChildIndex
            from rfl, hcond.1] at hi
        cases hi
      obtain ⟨a, b⟩ := selectorUpdate_inv ie
        { rs.base with children := sh rs.base.children } d hok1
      exact ⟨a, b⟩
    · rw [if_neg hcond]
      obtain ⟨a, b⟩ := selectorUpdate_inv ie rs.base d hok
      exact ⟨a, b⟩

/-- The function `RandomSequence::update` preserves the running-index validity
invariant, and an index remembered after the call comes with a RUNNING
result. -/
theorem randomSequenceUpdate_inv {σ : Type} (ie : Bool)
    (sh : List (Child σ) → List (Child σ)) (rs : RandomComposite σ) (d : ℚ)
    (hok : runningIndexOk rs.base) :
    runningIndexOk (RandomSequence.update ie sh rs d).2.base
  ∧ ((RandomSequence.update ie sh rs d).2.base.runningChildIndex.isSome →
      (RandomSequence.update ie sh rs d).1 = NODE_STATE.RUNNING) := by
  by_cases hemp : rs.base.children.isEmpty
  · simp only [RandomSequence.update, if_pos hemp]
    have hnil : rs.base.children = [] := by simpa using hemp
    refine ⟨hok, fun hs => ?_⟩
    exfalso
    rcases hidx : rs.base.runningChildIndex with _ | i
    · rw [hidx] at hs; cases hs
    · have hi := hok i hidx
      rw [hnil] at hi
      simp at hi
  · simp only [RandomSequence.update, if_neg hemp]
    by_cases hcond : rs.base.runningChildIndex = none ∧ rs.needShuffle
    · rw [if_pos hcond]
      have hok1 : runningIndexOk
          { rs.base with children := sh rs.base.children } := by
        intro i hi
        rw [show ({ rs.base with children := sh rs.base.children } :
            CompositeNode σ).runningChildIndex = rs.base.runningChildIndex
            from rfl, hcond.1] at hi
        cases hi
      obtain ⟨a, b⟩ := sequenceUpdate_inv ie
        { rs.base with children := sh rs.base.children } d hok1
      exact ⟨a, b⟩
    · rw [if_neg hcond]
      obtain ⟨a, b⟩ := sequenceUpdate_inv ie rs.base d hok
      exact ⟨a, b⟩

/-- The function `addChild` preserves the running-index validity invariant. -/
theorem addChild_inv {σ : Type} (s : CompositeNode σ) (oc : Option (Child σ))
    (hok : runningIndexOk s) : runningIndexOk (addChild s oc).2 := by
  rcases oc with _ | c
  · exact hok
  · intro i hi
    have hlt := hok i hi
    show i < (s.children ++ [c]).length
    simp only [List.length_append, List.length_cons, List.length_nil]
    omega

/-- The function `addChildren` preserves the running-index validity invariant. -/
theorem addChildren_inv {σ : Type} (s : CompositeNode σ)
    (cs : List (Child σ)) (hok : runningIndexOk s) :
    runningIndexOk (addChildren s cs).2 := by
  unfold addChildren
  split
  · exact hok
  · split
    · exact hok
    · intro i hi
      have hlt := hok i hi
      show i < (s.children ++ cs).length
      simp only [List.length_append]
      omega

/-- C9 counterexample: `clearChildren` empties the children but leaves the
remembered running-child index set, and a truncating `setMaxChildrenSize`
leaves the index beyond the new length; in both resulting states the index
is set yet not a valid position, refuting the claim that the index is valid
after any operation. -/
theorem C9_running_index_counterexample :
    (clearChildren (⟨[alwaysRunningChild], INFINITE_CHILDREN, some 0⟩ :
        CompositeNode ℕ) true).runningChildIndex = some 0
  ∧ (clearChildren (⟨[alwaysRunningChild], INFINITE_CHILDREN, some 0⟩ :
        CompositeNode ℕ) true).children.length = 0
  ∧ isRunningChildIndexValid
        (clearChildren (⟨[alwaysRunningChild], INFINITE_CHILDREN, some 0⟩ :
          CompositeNode ℕ) true) = false
  ∧ setMaxChildrenSize
        (⟨[alwaysSuccessChild, alwaysSuccessChild, alwaysSuccessChild], 5,
          some 2⟩ : CompositeNode ℕ) 1 false
      = SetMaxResult.noReturn ⟨[alwaysSuccessChild], 5, some 2⟩
  ∧ isRunningChildIndexValid
        (⟨[alwaysSuccessChild], 5, some 2⟩ : CompositeNode ℕ) = false := by
  exact ⟨rfl, rfl, rfl, rfl, rfl⟩

/-- C9 (amended): the `update` of each composite kind preserves the
validity of the remembered running-child index (given it was valid or
unset before), and an index remembered after an update always comes with a
RUNNING result — so the index is cleared whenever the remembered child
stops returning RUNNING; `addChild` and `addChildren` also preserve
validity.  `clearChildren` and a truncating `setMaxChildrenSize` may leave
the index stale; `update` instead guards every resume with
`isRunningChildIndexValid`. -/
theorem C9_running_index_invariant_amended {σ : Type} (ignoreError : Bool)
    (sh : List (Child σ) → List (Child σ)) (s : CompositeNode σ)
    (rs : RandomComposite σ) (oc : Option (Child σ)) (cs : List (Child σ))
    (delta : ℚ) (hok : runningIndexOk s) (hok2 : runningIndexOk rs.base) :
    runningIndexOk (Selector.update ignoreError s delta).2
  ∧ ((Selector.update ignoreError s delta).2.runningChildIndex.isSome →
      (Selector.update ignoreError s delta).1 = NODE_STATE.RUNNING)
  ∧ runningIndexOk (Sequence.update ignoreError s delta).2
  ∧ ((Sequence.update ignoreError s delta).2.runningChildIndex.isSome →
      (Sequence.update ignoreError s delta).1 = NODE_STATE.RUNNING)
  ∧ runningIndexOk (RandomSelector.update ignoreError sh rs delta).2.base
  ∧ ((RandomSelector.update ignoreError sh rs
        delta).2.base.runningChildIndex.isSome →
      (RandomSelector.update ignoreError sh rs delta).1
        = NODE_STATE.RUNNING)
  ∧ runningIndexOk (RandomSequence.update ignoreError sh rs delta).2.base
  ∧ ((RandomSequence.update ignoreError sh rs
        delta).2.base.runningChildIndex.isSome →
      (RandomSequence.update ignoreError sh rs delta).1
        = NODE_STATE.RUNNING)
  ∧ runningIndexOk (addChild s oc).2
  ∧ runningIndexOk (addChildren s cs).2 := by
  obtain ⟨a1, a2⟩ := selectorUpdate_inv ignoreError s delta hok
  obtain ⟨b1, b2⟩ := sequenceUpdate_inv ignoreError s delta hok
  obtain ⟨c1, c2⟩ := randomSelectorUpdate_inv ignoreError sh rs delta hok2
  obtain ⟨d1, d2⟩ := randomSequenceUpdate_inv ignoreError sh rs delta hok2
  exact ⟨a1, a2, b1, b2, c1, c2, d1, d2, addChild_inv s oc hok,
    addChildren_inv s cs hok⟩

/-- Witness for C9's amended statement at concrete inputs: a Selector and
Sequence state with a valid remembered index 0, a random composite with no
remembered index, a real reversal as shuffle, and concrete children to add. -/
theorem C9_running_index_invariant_amended_witness :
    runningIndexOk (Selector.update true
        (⟨[alwaysSuccessChild], INFINITE_CHILDREN, some 0⟩ :
          CompositeNode ℕ) 1).2
  ∧ ((Selector.update true (⟨[alwaysSuccessChild], INFINITE_CHILDREN,
        some 0⟩ : CompositeNode ℕ) 1).2.runningChildIndex.isSome →
      (Selector.update true (⟨[alwaysSuccessChild], INFINITE_CHILDREN,
        some 0⟩ : CompositeNode ℕ) 1).1 = NODE_STATE.RUNNING)
  ∧ runningIndexOk (Sequence.update true
        (⟨[alwaysSuccessChild], INFINITE_CHILDREN, some 0⟩ :
          CompositeNode ℕ) 1).2
  ∧ ((Sequence.update true (⟨[alwaysSuccessChild], INFINITE_CHILDREN,
        some 0⟩ : CompositeNode ℕ) 1).2.runningChildIndex.isSome →
      (Sequence.update true (⟨[alwaysSuccessChild], INFINITE_CHILDREN,
        some 0⟩ : CompositeNode ℕ) 1).1 = NODE_STATE.RUNNING)
  ∧ runningIndexOk (RandomSelector.update true List.reverse
        ⟨⟨[alwaysRunningChild], INFINITE_CHILDREN, none⟩, true⟩ 1).2.base
  ∧ ((RandomSelector.update true List.reverse
        ⟨⟨[alwaysRunningChild], INFINITE_CHILDREN, none⟩, true⟩
        1).2.base.runningChildIndex.isSome →
      (RandomSelector.update true List.reverse
        ⟨⟨[alwaysRunningChild], INFINITE_CHILDREN, none⟩, true⟩ 1).1
        = NODE_STATE.RUNNING)
  ∧ runningIndexOk (RandomSequence.update true List.reverse
        ⟨⟨[alwaysRunningChild], INFINITE_CHILDREN, none⟩, true⟩ 1).2.base
  ∧ ((RandomSequence.update true List.reverse
        ⟨⟨[alwaysRunningChild], INFINITE_CHILDREN, none⟩, true⟩
        1).2.base.runningChildIndex.isSome →
      (RandomSequence.update true List.reverse
        ⟨⟨[alwaysRunningChild], INFINITE_CHILDREN, none⟩, true⟩ 1).1
        = NODE_STATE.RUNNING)
  ∧ runningIndexOk (addChild (⟨[alwaysSuccessChild], INFINITE_CHILDREN,
        some 0⟩ : CompositeNode ℕ) (some alwaysSuccessChild)).2
  ∧ runningIndexOk (addChildren (⟨[alwaysSuccessChild], INFINITE_CHILDREN,
        some 0⟩ : CompositeNode ℕ) [alwaysErrorChild]).2 :=
  C9_running_index_invariant_amended true List.reverse
    (⟨[alwaysSuccessChild], INFINITE_CHILDREN, some 0⟩ : CompositeNode ℕ)
    ⟨⟨[alwaysRunningChild], INFINITE_CHILDREN, none⟩, true⟩
    (some alwaysSuccessChild) [alwaysErrorChild] 1
    (by intro i hi; simp at hi; subst hi; decide)
    (fun i hi => nomatch hi)
